import Mathlib

/-!
Shallow embedding of the `multi-site-location` plugin hooks.

The embedded code lives in:
* `hook/actions/transfer_action.py` — the transfer action: selection
  resolver (`get_components_in_location`), batch transfer engine
  (`transfer_components`), UI form builder (`interface`) and launch
  handler (`launch`);
* `hook/locations/user_location_plugin.py` and
  `hook/locations/s3_location_plugin.py` — hostname-gated
  configure-location handlers;
* `hook/multi_site_locations_plugin.py` — the patched event publish that
  stamps the hostname onto configure-location events.

The ftrack SDK itself (sessions, entity query language, locations,
accessors) is an external collaborator.  Its behaviour at each call site
is passed in as data: the outcome of each `add_component` call is given
as an oracle list of `CopyOutcome`s, the catalog behind the resolver's
queries is a list of component records carrying exactly the relation
fields the four query strings inspect, and commits of the `Job` record
are recorded in explicit traces.
-/

namespace MultiSiteLocation

/-- Status values the transfer job is given: created `running`, finished
`done` or `failed` (`transfer_action.py`). -/
inductive JobStatus : Type
  | running
  | done
  | failed
deriving DecidableEq, Repr

/-- Outcome of one `target_location.add_component(component, source=...)`
call, as distinguished by the `except` chain in `transfer_components`:
a successful byte copy, `ComponentInLocationError` (already in target),
`ComponentNotInLocationError` (missing from source), any other
`LocationError`, or an exception outside the location hierarchy. -/
inductive CopyOutcome : Type
  | ok
  | alreadyInTarget
  | notInSource
  | locError
  | otherError
deriving DecidableEq, Repr, Fintype

/-- What one iteration of the transfer loop does with its
`add_component` call: the copy went through, the exception was caught
and logged (execution continues), or the exception was re-raised. -/
inductive StepResult : Type
  | copied
  | absorbed
  | raised (e : CopyOutcome)
deriving DecidableEq, Repr

/-- The `try/except` chain around `target_location.add_component` in
`transfer_components` (`transfer_action.py`):
`ComponentInLocationError` is caught unconditionally and logged;
`ComponentNotInLocationError` is caught when
`ignore_component_not_in_location` or `ignore_location_errors` is set,
else re-raised; any other `LocationError` is caught when
`ignore_location_errors` is set, else re-raised; anything else
propagates to the outer handler. -/
def handle_add_component (im il : Bool) : CopyOutcome → StepResult
  | CopyOutcome.ok => StepResult.copied
  | CopyOutcome.alreadyInTarget => StepResult.absorbed
  | CopyOutcome.notInSource =>
      if im || il then StepResult.absorbed
      else StepResult.raised CopyOutcome.notInSource
  | CopyOutcome.locError =>
      if il then StepResult.absorbed
      else StepResult.raised CopyOutcome.locError
  | CopyOutcome.otherError => StepResult.raised CopyOutcome.otherError

/-- The job description committed before the `index`-th copy attempt:
`'Transfer components ({0} of {1})'.format(index, amount)`. -/
def progressDescription (index total : Nat) : String :=
  "Transfer components (" ++ toString index ++ " of " ++ toString total ++ ")"

/-- The job description set when the job is created:
`'Transfer components (Gathering...)'`. -/
def gatheringDescription : String :=
  "Transfer components (Gathering...)"

/-- Observable effect of the `for index, component in enumerate(...)`
loop: the descriptions committed (one before every copy attempt), the
number of `add_component` calls made, the number of those calls that
actually copied bytes, and whether an exception escaped the loop. -/
structure BatchResult : Type where
  descs : List String
  attempts : Nat
  byteCopies : Nat
  aborted : Bool
deriving DecidableEq, Repr

/-- The transfer loop of `transfer_components`, iterating the resolved
components (given by their copy outcomes) with `enumerate(..., start=1)`.
For each component the progress description is committed first, then the
copy is attempted; a re-raised exception ends the loop at once, so later
components are never attempted. -/
def runBatch (im il : Bool) (total : Nat) :
    List CopyOutcome → Nat → BatchResult
  | [], _ => ⟨[], 0, 0, false⟩
  | o :: rest, index =>
      match handle_add_component im il o with
      | StepResult.raised _ =>
          ⟨[progressDescription index total], 1, 0, true⟩
      | StepResult.copied =>
          let r := runBatch im il total rest (index + 1)
          ⟨progressDescription index total :: r.descs,
            r.attempts + 1, r.byteCopies + 1, r.aborted⟩
      | StepResult.absorbed =>
          let r := runBatch im il total rest (index + 1)
          ⟨progressDescription index total :: r.descs,
            r.attempts + 1, r.byteCopies, r.aborted⟩

/-- Observable effect of one `transfer_components` invocation: how many
`Job` records were created, the job statuses in commit order, the job
descriptions in commit order, the number of copy attempts, the number of
actual byte copies, the terminal status, and the component count logged
at completion (0 when the run did not complete). -/
structure EngineResult : Type where
  jobsCreated : Nat
  statusTrace : List JobStatus
  descTrace : List String
  attempts : Nat
  byteCopies : Nat
  finalStatus : JobStatus
  transferredCount : Nat
deriving DecidableEq, Repr

/-- The body of `transfer_components` (`transfer_action.py`).  One `Job`
is created with status `running` and the gathering description, and
committed.  The resolver either raises (`Except.error`) — caught by the
outer `except BaseException`, which rolls back and commits status
`failed` — or yields the component list, whose copy outcomes drive
`runBatch`.  If the loop finishes without an escaped exception the job
is committed `done` and the total count is logged; otherwise the outer
handler commits `failed`. -/
def transfer_components (resolved : Except Unit (List CopyOutcome))
    (im il : Bool) : EngineResult :=
  match resolved with
  | Except.error _ =>
      { jobsCreated := 1
        statusTrace := [JobStatus.running, JobStatus.failed]
        descTrace := [gatheringDescription]
        attempts := 0
        byteCopies := 0
        finalStatus := JobStatus.failed
        transferredCount := 0 }
  | Except.ok outcomes =>
      let total := outcomes.length
      let b := runBatch im il total outcomes 1
      if b.aborted then
        { jobsCreated := 1
          statusTrace := [JobStatus.running, JobStatus.failed]
          descTrace := gatheringDescription :: b.descs
          attempts := b.attempts
          byteCopies := b.byteCopies
          finalStatus := JobStatus.failed
          transferredCount := 0 }
      else
        { jobsCreated := 1
          statusTrace := [JobStatus.running, JobStatus.done]
          descTrace := gatheringDescription :: b.descs
          attempts := b.attempts
          byteCopies := b.byteCopies
          finalStatus := JobStatus.done
          transferredCount := total }

/-! ### Selection resolver (`get_components_in_location`) -/

/-- One entry of `event['data']['selection']`: an entity type string and
an entity id. -/
structure SelectionItem : Type where
  entityType : String
  entityId : Nat
deriving DecidableEq, Repr

/-- A component record of the entity catalog, carrying exactly the
relation fields the four query strings of `get_components_in_location`
inspect: `version.asset.parent.project.id`, `version.asset.parent.id`,
`version.asset.parent.ancestors.id`, `version_id`, `id` and
`component_locations.location_id`. -/
structure CatComponent : Type where
  id : Nat
  versionId : Nat
  parentId : Nat
  projectId : Nat
  ancestorIds : List Nat
  locationIds : List Nat
deriving DecidableEq, Repr

/-- The `entity_groups` bucket for entity type `t`: ids of the selection
items whose `entityType` equals `t`, in selection order. -/
def entityGroup (entities : List SelectionItem) (t : String) : List Nat :=
  (entities.filter (fun e => e.entityType == t)).map (fun e => e.entityId)

/-- Query `Component where (version.asset.parent.project.id in (ids) or
version.asset.parent.id in (ids))`. -/
def matchesProject (ids : List Nat) (c : CatComponent) : Bool :=
  ids.contains c.projectId || ids.contains c.parentId

/-- Query `Component where (version.asset.parent.ancestors.id in (ids)
or version.asset.parent.id in (ids))`. -/
def matchesTypedContext (ids : List Nat) (c : CatComponent) : Bool :=
  c.ancestorIds.any (fun a => ids.contains a) || ids.contains c.parentId

/-- Query `Component where version_id in (ids)`. -/
def matchesVersion (ids : List Nat) (c : CatComponent) : Bool :=
  ids.contains c.versionId

/-- Query `Component where id in (ids)`. -/
def matchesComponent (ids : List Nat) (c : CatComponent) : Bool :=
  ids.contains c.id

/-- The extra clause appended to every query:
`component_locations.location_id is "{loc_id}"`. -/
def inLocation (locId : Nat) (c : CatComponent) : Bool :=
  c.locationIds.contains locId

/-- One `session.query('{query} and component_locations.location_id is
"{loc}"').all()` call against the catalog, collected into a set. -/
def locQuery (catalog : List CatComponent) (q : CatComponent → Bool)
    (locId : Nat) : Finset CatComponent :=
  (catalog.filter (fun c => q c && inLocation locId c)).toFinset

/-- `get_components_in_location` (`transfer_action.py`): the selection is
grouped by entity type; a query is built for each non-empty group
(`Project`, `TypedContext`, `assetversion`, `Component`, in that order);
each query is run with the source-location constraint and the results
accumulate into the Python set `components`. -/
def get_components_in_location (catalog : List CatComponent)
    (entities : List SelectionItem) (locId : Nat) : Finset CatComponent :=
  let component_queries : List (CatComponent → Bool) :=
    (if entityGroup entities "Project" = [] then []
      else [matchesProject (entityGroup entities "Project")])
    ++ (if entityGroup entities "TypedContext" = [] then []
      else [matchesTypedContext (entityGroup entities "TypedContext")])
    ++ (if entityGroup entities "assetversion" = [] then []
      else [matchesVersion (entityGroup entities "assetversion")])
    ++ (if entityGroup entities "Component" = [] then []
      else [matchesComponent (entityGroup entities "Component")])
  component_queries.foldl (fun acc q => acc ∪ locQuery catalog q locId) ∅

/-! ### Interface form builder (`interface`) -/

/-- A `Location` entity as the `interface` method reads it: id, name,
label, priority, and whether `location.accessor` is configured. -/
structure LocationRec : Type where
  id : Nat
  name : String
  label : String
  priority : Int
  hasAccessor : Bool
deriving DecidableEq, Repr

/-- The `excluded_locations` class attribute: built-in locations removed
from the form's enumerators. -/
def excluded_locations : List String :=
  ["ftrack.origin", "ftrack.connect", "ftrack.server",
    "ftrack.unmanaged", "ftrack.review"]

/-- The location list the `interface` method builds its enumerator
options from: keep locations with an accessor, sort by priority
(Python's stable `sorted`), then drop the built-in excluded names. -/
def eligibleLocations (locs : List LocationRec) : List LocationRec :=
  let withAccessor := locs.filter (fun l => l.hasAccessor)
  let sorted :=
    withAccessor.insertionSort (fun a b => a.priority ≤ b.priority)
  sorted.filter (fun l => !(excluded_locations.contains l.name))

/-- The data of the form the `interface` method returns: the
pre-selected values of the two location enumerators, the shared option
list (by location id), and the default values of the two ignore
enumerators. -/
structure InterfaceForm : Type where
  fromDefault : Nat
  toDefault : Nat
  optionIds : List Nat
  ignoreMissingDefault : String
  ignoreErrorsDefault : String
deriving DecidableEq, Repr

/-- Result of an `interface` call: `noForm` when submitted values are
present (the method falls through and returns `None`), `indexError`
when `locations_options[0]` or `locations_options[1]` is out of range,
else the built form. -/
inductive InterfaceOutcome : Type
  | noForm
  | indexError
  | form (f : InterfaceForm)
deriving DecidableEq, Repr

/-- The `interface` method (`transfer_action.py`): when no values were
submitted it builds `locations_options` from the eligible locations and
pre-selects `locations_options[0]['value']` for `from_location` and
`locations_options[1]['value']` for `to_location`; both indexings raise
`IndexError` when fewer than two options exist. -/
def interface (hasValues : Bool) (locs : List LocationRec) :
    InterfaceOutcome :=
  if hasValues then InterfaceOutcome.noForm
  else
    match (eligibleLocations locs).map (fun l => l.id) with
    | v0 :: v1 :: rest =>
        InterfaceOutcome.form
          { fromDefault := v0
            toDefault := v1
            optionIds := v0 :: v1 :: rest
            ignoreMissingDefault := "false"
            ignoreErrorsDefault := "false" }
    | _ => InterfaceOutcome.indexError

/-! ### Launch handler (`launch`) -/

/-- The submitted form values carried by a launch event:
`from_location`, `to_location` (location ids; `session.get` on equal ids
yields the identical cached entity, so the `==` identity comparison is
id equality) and the two ignore enumerators, which arrive as the strings
`'true'`/`'false'`. -/
structure LaunchValues : Type where
  from_location : Nat
  to_location : Nat
  ignore_component_not_in_location : String
  ignore_location_errors : String
deriving DecidableEq, Repr

/-- The message returned when source and target coincide. -/
def sameLocationMessage : String :=
  "Source and target locations are the same."

/-- What `launch` hands back to the event caller: the structured
acknowledgement dict, or the result of delegating to `interface` when no
values were submitted. -/
inductive LaunchReply : Type
  | ack (success : Bool) (message : String)
  | interfaceReply (o : InterfaceOutcome)
deriving DecidableEq, Repr

/-- Observable effect of one `launch` call: the reply, and the flag
pairs `(ignore_component_not_in_location, ignore_location_errors)` of
the `transfer_components` invocations it spawned (each spawned engine
run creates its own `Job`; none spawned means no `Job` is created). -/
structure LaunchResult : Type where
  reply : LaunchReply
  spawned : List (Bool × Bool)
deriving DecidableEq, Repr

/-- The `launch` method (`transfer_action.py`): with submitted values it
resolves both locations, returns the failure acknowledgement when they
are the same entity (spawning nothing), else converts the ignore strings
with `== 'true'`, spawns the asynchronous `transfer_components`, and
acknowledges success; without values it delegates to `interface`. -/
def launch (values? : Option LaunchValues) (locs : List LocationRec) :
    LaunchResult :=
  match values? with
  | some v =>
      if v.from_location = v.to_location then
        { reply := LaunchReply.ack false sameLocationMessage
          spawned := [] }
      else
        { reply := LaunchReply.ack true "Transferring components..."
          spawned :=
            [(v.ignore_component_not_in_location == "true",
              v.ignore_location_errors == "true")] }
  | none =>
      { reply := LaunchReply.interfaceReply (interface false locs)
        spawned := [] }

/-! ### Hostname-gated location configuration -/

/-- The topic the publish patch and both configure handlers act on. -/
def configureLocationTopic : String :=
  "ftrack.api.session.configure-location"

/-- `hostname` as a configure handler reads it from the event source:
`event_source.get('hostname', '').lower()` (`none` models an absent
key). -/
def eventHostnameLower (sourceHostname : Option String) : String :=
  (sourceHostname.getD "").toLower

/-- The hostname gate of `configure_locations`
(`user_location_plugin.py`), modelled up to the registration step: it
returns `true` exactly when the handler proceeds to
`session_add_user_location` (the subscription in `register` always
supplies `location_setup`), and `false` when the early `return` fires
because a non-empty event hostname differs from the lowered current
hostname. -/
def configure_locations (currentHostname : String)
    (sourceHostname : Option String) : Bool :=
  let current_hostname := currentHostname.toLower
  let event_hostname := eventHostnameLower sourceHostname
  if event_hostname ≠ "" && event_hostname ≠ current_hostname then false
  else true

/-- The hostname gate of `configure_s3_location`
(`s3_location_plugin.py`), modelled up to the registration step: `true`
exactly when the handler proceeds to `session_add_s3_location`, `false`
when the early `return` fires on a hostname mismatch. -/
def configure_s3_location (currentHostname : String)
    (sourceHostname : Option String) : Bool :=
  let current_hostname := currentHostname.toLower
  let event_hostname := eventHostnameLower sourceHostname
  if event_hostname ≠ "" && event_hostname ≠ current_hostname then false
  else true

/-- An event as seen by the patched publish: its topic and the
`hostname` entry of its source mapping. -/
structure PublishedEvent : Type where
  topic : String
  sourceHostname : Option String
deriving DecidableEq, Repr

/-- `publish_with_hostname` (`multi_site_locations_plugin.py`): before
delegating to the original publish it stamps the lowered current
hostname onto the source of every event whose topic is
`ftrack.api.session.configure-location`; other events pass through
unchanged. -/
def publish_with_hostname (currentHostname : String)
    (e : PublishedEvent) : PublishedEvent :=
  if e.topic == configureLocationTopic then
    { e with sourceHostname := some currentHostname.toLower }
  else e

/-- A two-location catalog with configured accessors and non-excluded
names, used to evaluate the interface builder on a concrete state. -/
def demoLocations : List LocationRec :=
  [{ id := 1, name := "studio.a", label := "Studio A",
     priority := 0, hasAccessor := true },
   { id := 2, name := "studio.b", label := "Studio B",
     priority := 1, hasAccessor := true }]

/-! ### Helper lemmas -/

/-- The starting index only shifts the committed descriptions; the
abort flag, the attempt count and the byte-copy count of the loop do
not depend on it. -/
lemma runBatch_stats_index_invariant (im il : Bool) (total : Nat) :
    ∀ (outs : List CopyOutcome) (i j : Nat),
      (runBatch im il total outs i).aborted
        = (runBatch im il total outs j).aborted
      ∧ (runBatch im il total outs i).attempts
        = (runBatch im il total outs j).attempts
      ∧ (runBatch im il total outs i).byteCopies
        = (runBatch im il total outs j).byteCopies := by
  intro outs
  induction outs with
  | nil => intro i j; exact ⟨rfl, rfl, rfl⟩
  | cons o os ih =>
      intro i j
      have ih' := ih (i + 1) (j + 1)
      cases hh : handle_add_component im il o with
      | raised e => simp [runBatch, hh]
      | copied =>
          simp only [runBatch, hh]
          exact ⟨ih'.1, by rw [ih'.2.1], by rw [ih'.2.2]⟩
      | absorbed =>
          simp only [runBatch, hh]
          exact ⟨ih'.1, by rw [ih'.2.1], by rw [ih'.2.2]⟩

/-- Prepending components whose copies do not re-raise leaves the
abort flag unchanged and adds one attempt per component. -/
lemma runBatch_append_no_raise (im il : Bool) (total : Nat)
    (rest : List CopyOutcome) :
    ∀ (pre : List CopyOutcome) (index : Nat),
      (∀ x ∈ pre, ∀ e, handle_add_component im il x ≠ StepResult.raised e) →
      (runBatch im il total (pre ++ rest) index).aborted
        = (runBatch im il total rest (index + pre.length)).aborted
      ∧ (runBatch im il total (pre ++ rest) index).attempts
        = pre.length + (runBatch im il total rest (index + pre.length)).attempts := by
  intro pre
  induction pre with
  | nil => intro index _; simp
  | cons x xs ih =>
      intro index hpre
      have hx := hpre x (List.mem_cons_self x xs)
      have ih' := ih (index + 1)
        (fun y hy e => hpre y (List.mem_cons_of_mem x hy) e)
      have hA := runBatch_stats_index_invariant im il total rest
        (index + 1 + xs.length) (index + (x :: xs).length)
      have hB := runBatch_stats_index_invariant im il total rest
        (index + (xs.length + 1)) (index + (x :: xs).length)
      have hA1 := hA.1
      have hA2 := hA.2.1
      have hB1 := hB.1
      have hB2 := hB.2.1
      cases hh : handle_add_component im il x with
      | raised e => exact absurd hh (hx e)
      | copied =>
          simp only [List.cons_append, runBatch, hh, List.append_eq]
          refine ⟨?_, ?_⟩
          · rw [ih'.1]; exact hA1
          · rw [ih'.2]; simp only [List.length_cons]; omega
      | absorbed =>
          simp only [List.cons_append, runBatch, hh, List.append_eq]
          refine ⟨?_, ?_⟩
          · rw [ih'.1]; exact hA1
          · rw [ih'.2]; simp only [List.length_cons]; omega

/-- A batch whose copies all go through: every component is attempted
and copied, the committed descriptions enumerate the positions starting
at `index`, and no exception escapes. -/
lemma runBatch_all_copied (im il : Bool) (total : Nat) :
    ∀ (outs : List CopyOutcome) (index : Nat),
      (∀ o ∈ outs, o = CopyOutcome.ok) →
      runBatch im il total outs index =
        ⟨(List.range outs.length).map
            (fun i => progressDescription (index + i) total),
          outs.length, outs.length, false⟩ := by
  intro outs
  induction outs with
  | nil => intro index _; rfl
  | cons o os ih =>
      intro index h
      have ho : o = CopyOutcome.ok := h o (List.mem_cons_self o os)
      subst ho
      have ih' := ih (index + 1)
        (fun x hx => h x (List.mem_cons_of_mem _ hx))
      simp only [runBatch, handle_add_component, ih', List.length_cons]
      have hdesc :
          (List.range (os.length + 1)).map
              (fun i => progressDescription (index + i) total)
            = progressDescription index total ::
              (List.range os.length).map
                (fun i => progressDescription (index + 1 + i) total) := by
        rw [List.range_succ_eq_map, List.map_cons, List.map_map]
        refine congrArg₂ _ (by rw [Nat.add_zero]) ?_
        refine List.map_congr_left (fun i _ => ?_)
        simp only [Function.comp]
        congr 1
        omega
      rw [hdesc]

/-- A batch whose copies are all absorbed errors: every component is
attempted, no bytes are copied, and no exception escapes. -/
lemma runBatch_all_absorbed (im il : Bool) (total : Nat) :
    ∀ (outs : List CopyOutcome) (index : Nat),
      (∀ o ∈ outs, handle_add_component im il o = StepResult.absorbed) →
      (runBatch im il total outs index).aborted = false
      ∧ (runBatch im il total outs index).byteCopies = 0
      ∧ (runBatch im il total outs index).attempts = outs.length := by
  intro outs
  induction outs with
  | nil => intro index _; exact ⟨rfl, rfl, rfl⟩
  | cons o os ih =>
      intro index h
      have ho := h o (List.mem_cons_self o os)
      have ih' := ih (index + 1)
        (fun x hx => h x (List.mem_cons_of_mem _ hx))
      simp only [runBatch, ho, List.length_cons]
      exact ⟨ih'.1, ih'.2.1, by rw [ih'.2.2]⟩

/-- An empty id bucket matches no component (project query). -/
lemma matchesProject_nil (c : CatComponent) :
    matchesProject [] c = false := rfl

/-- An empty id bucket matches no component (context query). -/
lemma matchesTypedContext_nil (c : CatComponent) :
    matchesTypedContext [] c = false := by
  simp [matchesTypedContext]

/-- An empty id bucket matches no component (version query). -/
lemma matchesVersion_nil (c : CatComponent) :
    matchesVersion [] c = false := rfl

/-- An empty id bucket matches no component (component query). -/
lemma matchesComponent_nil (c : CatComponent) :
    matchesComponent [] c = false := rfl

/-- A query whose predicate matches nothing returns the empty set. -/
lemma locQuery_of_false (catalog : List CatComponent) (locId : Nat)
    (q : CatComponent → Bool) (hq : ∀ c, q c = false) :
    locQuery catalog q locId = ∅ := by
  simp [locQuery, hq]

/-- The project query over an empty bucket returns the empty set. -/
lemma locQuery_project_nil (catalog : List CatComponent) (locId : Nat) :
    locQuery catalog (matchesProject []) locId = ∅ :=
  locQuery_of_false catalog locId _ matchesProject_nil

/-- The context query over an empty bucket returns the empty set. -/
lemma locQuery_context_nil (catalog : List CatComponent) (locId : Nat) :
    locQuery catalog (matchesTypedContext []) locId = ∅ :=
  locQuery_of_false catalog locId _ matchesTypedContext_nil

/-- The version query over an empty bucket returns the empty set. -/
lemma locQuery_version_nil (catalog : List CatComponent) (locId : Nat) :
    locQuery catalog (matchesVersion []) locId = ∅ :=
  locQuery_of_false catalog locId _ matchesVersion_nil

/-- The component query over an empty bucket returns the empty set. -/
lemma locQuery_component_nil (catalog : List CatComponent) (locId : Nat) :
    locQuery catalog (matchesComponent []) locId = ∅ :=
  locQuery_of_false catalog locId _ matchesComponent_nil

/-! ### Claim theorems -/

/-- C1: for every component in a batch the transfer engine classifies a
copy failure in the order of the `except` chain: a component already in
the target is treated as success and the loop continues; a component
missing from the source is absorbed exactly when `ignore_missing` or
`ignore_location_errors` is set and otherwise re-raised; any other
location error is absorbed exactly when `ignore_location_errors` is set
and otherwise re-raised; a non-raising step continues into the rest of
the batch, a raising step ends the loop at once, and a batch ended by a
re-raise makes the whole invocation fail. -/
theorem C1_copy_failure_classification (im il : Bool) (o : CopyOutcome)
    (rest : List CopyOutcome) (total index : Nat) :
    handle_add_component im il CopyOutcome.alreadyInTarget
      = StepResult.absorbed
    ∧ handle_add_component im il CopyOutcome.notInSource
      = (if im || il then StepResult.absorbed
          else StepResult.raised CopyOutcome.notInSource)
    ∧ handle_add_component im il CopyOutcome.locError
      = (if il then StepResult.absorbed
          else StepResult.raised CopyOutcome.locError)
    ∧ ((∀ e, handle_add_component im il o ≠ StepResult.raised e) →
        (runBatch im il total (o :: rest) index).aborted
          = (runBatch im il total rest (index + 1)).aborted
        ∧ (runBatch im il total (o :: rest) index).attempts
          = (runBatch im il total rest (index + 1)).attempts + 1
        ∧ (runBatch im il total (o :: rest) index).descs
          = progressDescription index total
              :: (runBatch im il total rest (index + 1)).descs)
    ∧ (∀ e, handle_add_component im il o = StepResult.raised e →
        runBatch im il total (o :: rest) index
          = ⟨[progressDescription index total], 1, 0, true⟩)
    ∧ (∀ outs : List CopyOutcome,
        (transfer_components (Except.ok outs) im il).finalStatus
          = (if (runBatch im il outs.length outs 1).aborted
              then JobStatus.failed else JobStatus.done)) := by
  refine ⟨rfl, rfl, rfl, ?_, ?_, ?_⟩
  · intro h
    cases hh : handle_add_component im il o with
    | raised e => exact absurd hh (h e)
    | copied => simp [runBatch, hh]
    | absorbed => simp [runBatch, hh]
  · intro e he
    simp [runBatch, he]
  · intro outs
    by_cases h : (runBatch im il outs.length outs 1).aborted
    · simp [transfer_components, h]
    · simp [transfer_components, h]

/-- Witness for C1 at concrete inputs: with both flags clear a missing
component re-raises and stops the batch after one attempt; with
`ignore_missing` set it is absorbed and the next component is still
attempted. -/
theorem C1_copy_failure_classification_witness :
    runBatch false false 2 [CopyOutcome.notInSource, CopyOutcome.ok] 1
      = ⟨[progressDescription 1 2], 1, 0, true⟩
    ∧ (runBatch true false 2 [CopyOutcome.notInSource, CopyOutcome.ok]
        1).attempts
      = (runBatch true false 2 [CopyOutcome.ok] 2).attempts + 1 :=
  ⟨(C1_copy_failure_classification false false CopyOutcome.notInSource
      [CopyOutcome.ok] 2 1).2.2.2.2.1 CopyOutcome.notInSource (by decide),
    ((C1_copy_failure_classification true false CopyOutcome.notInSource
      [CopyOutcome.ok] 2 1).2.2.2.1 (by decide)).2.1⟩

/-- C2: when the `k`-th component of a batch raises the missing-source
error with both ignore flags clear, the job ends `failed` and exactly
`k` copy attempts are made (later components are never attempted), and
a resolver failure before any component is touched likewise ends the
job `failed` with zero attempts. -/
theorem C2_missing_component_aborts_batch (pre post : List CopyOutcome)
    (im il : Bool)
    (hpre : ∀ x ∈ pre, ∀ e,
      handle_add_component false false x ≠ StepResult.raised e) :
    (transfer_components
        (Except.ok (pre ++ CopyOutcome.notInSource :: post))
        false false).finalStatus = JobStatus.failed
    ∧ (transfer_components
        (Except.ok (pre ++ CopyOutcome.notInSource :: post))
        false false).attempts = pre.length + 1
    ∧ (transfer_components (Except.error ()) im il).finalStatus
        = JobStatus.failed
    ∧ (transfer_components (Except.error ()) im il).attempts = 0 := by
  have happ := runBatch_append_no_raise false false
    (pre ++ CopyOutcome.notInSource :: post).length
    (CopyOutcome.notInSource :: post) pre 1 hpre
  have hinner :
      runBatch false false (pre ++ CopyOutcome.notInSource :: post).length
        (CopyOutcome.notInSource :: post) (1 + pre.length)
        = ⟨[progressDescription (1 + pre.length)
            (pre ++ CopyOutcome.notInSource :: post).length], 1, 0, true⟩ := by
    simp [runBatch, handle_add_component]
  have haborted :
      (runBatch false false (pre ++ CopyOutcome.notInSource :: post).length
        (pre ++ CopyOutcome.notInSource :: post) 1).aborted = true := by
    rw [happ.1, hinner]
  have hattempts :
      (runBatch false false (pre ++ CopyOutcome.notInSource :: post).length
        (pre ++ CopyOutcome.notInSource :: post) 1).attempts
        = pre.length + 1 := by
    rw [happ.2, hinner]
  refine ⟨?_, ?_, rfl, rfl⟩
  · simp only [transfer_components]
    rw [haborted]
    rfl
  · simp only [transfer_components]
    rw [haborted]
    exact hattempts

/-- Witness for C2: in the batch `[ok, notInSource, ok]` with both
flags clear the job fails after exactly two attempts. -/
theorem C2_missing_component_aborts_batch_witness :
    (transfer_components
        (Except.ok [CopyOutcome.ok, CopyOutcome.notInSource, CopyOutcome.ok])
        false false).finalStatus = JobStatus.failed
    ∧ (transfer_components
        (Except.ok [CopyOutcome.ok, CopyOutcome.notInSource, CopyOutcome.ok])
        false false).attempts = 2 :=
  ⟨(C2_missing_component_aborts_batch [CopyOutcome.ok] [CopyOutcome.ok]
      false false (by decide)).1,
    (C2_missing_component_aborts_batch [CopyOutcome.ok] [CopyOutcome.ok]
      false false (by decide)).2.1⟩

/-- C3 counterexample: on the empty batch every component copy succeeds
vacuously and the run ends `done`, yet the last persisted description is
the initial gathering message, which is not of the form
`Transfer components (N of N)` (here `N = 0`). -/
theorem C3_counterexample_empty_batch :
    (∀ o ∈ ([] : List CopyOutcome), o = CopyOutcome.ok)
    ∧ (transfer_components (Except.ok []) false false).finalStatus
        = JobStatus.done
    ∧ (transfer_components (Except.ok []) false false).descTrace.getLast?
        = some gatheringDescription
    ∧ gatheringDescription ≠ progressDescription 0 0 := by
  refine ⟨by simp, rfl, rfl, by decide⟩

/-- C3 (amended: at least one component): the description trace starts
with the gathering message persisted at job creation and then records
`Transfer components (N of M)` (1-indexed) before each copy attempt;
for a non-empty batch whose copies all succeed, the final status is
`done` and the last persisted description reports `N of N`. -/
theorem C3_progress_descriptions (outs : List CopyOutcome) (im il : Bool)
    (hne : outs ≠ []) (hok : ∀ o ∈ outs, o = CopyOutcome.ok) :
    (transfer_components (Except.ok outs) im il).descTrace
      = gatheringDescription ::
          (List.range outs.length).map
            (fun i => progressDescription (1 + i) outs.length)
    ∧ (transfer_components (Except.ok outs) im il).finalStatus
        = JobStatus.done
    ∧ (transfer_components (Except.ok outs) im il).descTrace.getLast?
        = some (progressDescription outs.length outs.length) := by
  have hrun := runBatch_all_copied im il outs.length outs 1 hok
  have hnotab :
      (runBatch im il outs.length outs 1).aborted = false := by
    rw [hrun]
  have hdescs :
      (transfer_components (Except.ok outs) im il).descTrace
        = gatheringDescription ::
            (List.range outs.length).map
              (fun i => progressDescription (1 + i) outs.length) := by
    simp only [transfer_components]
    rw [hnotab]
    simp only [Bool.false_eq_true, if_false]
    rw [hrun]
  have hstatus :
      (transfer_components (Except.ok outs) im il).finalStatus
        = JobStatus.done := by
    simp only [transfer_components]
    rw [hnotab]
    rfl
  refine ⟨hdescs, hstatus, ?_⟩
  obtain ⟨m, hm⟩ : ∃ m, outs.length = m + 1 := by
    cases outs with
    | nil => exact absurd rfl hne
    | cons a l => exact ⟨l.length, rfl⟩
  rw [hdescs, hm, List.range_succ, List.map_append, List.map_cons,
    List.map_nil]
  have : gatheringDescription ::
      ((List.range m).map (fun i => progressDescription (1 + i) (m + 1))
        ++ [progressDescription (1 + m) (m + 1)])
      = (gatheringDescription ::
          (List.range m).map (fun i => progressDescription (1 + i) (m + 1)))
        ++ [progressDescription (1 + m) (m + 1)] := by
    rw [List.cons_append]
  rw [this, List.getLast?_concat]
  congr 2
  omega

/-- Witness for C3 (amended) on the three-component all-success batch:
the persisted descriptions are the gathering message then `1 of 3`,
`2 of 3`, `3 of 3`, and the run ends `done`. -/
theorem C3_progress_descriptions_witness :
    (transfer_components
        (Except.ok [CopyOutcome.ok, CopyOutcome.ok, CopyOutcome.ok])
        false false).descTrace
      = gatheringDescription ::
          (List.range 3).map (fun i => progressDescription (1 + i) 3)
    ∧ (transfer_components
        (Except.ok [CopyOutcome.ok, CopyOutcome.ok, CopyOutcome.ok])
        false false).finalStatus = JobStatus.done
    ∧ (transfer_components
        (Except.ok [CopyOutcome.ok, CopyOutcome.ok, CopyOutcome.ok])
        false false).descTrace.getLast?
      = some (progressDescription 3 3) :=
  C3_progress_descriptions
    [CopyOutcome.ok, CopyOutcome.ok, CopyOutcome.ok] false false
    (by decide) (by decide)

/-- C4: every invocation creates exactly one job, commits it with status
`running`, and commits exactly one further status, the terminal one,
which is `done` or `failed` — so the status sequence is
`[running, terminal]`, with no regression and no second transition. -/
theorem C4_job_status_lifecycle (resolved : Except Unit (List CopyOutcome))
    (im il : Bool) :
    (transfer_components resolved im il).jobsCreated = 1
    ∧ (transfer_components resolved im il).statusTrace
        = [JobStatus.running, (transfer_components resolved im il).finalStatus]
    ∧ ((transfer_components resolved im il).finalStatus = JobStatus.done
        ∨ (transfer_components resolved im il).finalStatus
            = JobStatus.failed) := by
  cases resolved with
  | error u => exact ⟨rfl, rfl, Or.inr rfl⟩
  | ok outs =>
      by_cases h : (runBatch im il outs.length outs 1).aborted = true
      · refine ⟨?_, ?_, Or.inr ?_⟩ <;>
        · simp only [transfer_components]
          rw [h]
          rfl
      · have h' : (runBatch im il outs.length outs 1).aborted = false :=
          Bool.not_eq_true _ ▸ Bool.of_not_eq_true h
        refine ⟨?_, ?_, Or.inl ?_⟩ <;>
        · simp only [transfer_components]
          rw [h']
          rfl

/-- C5: a launch whose submitted source and target location ids
coincide returns the structured failure acknowledgement synchronously
and spawns no transfer engine run (hence no job is created). -/
theorem C5_same_location_launch_rejected (v : LaunchValues)
    (locs : List LocationRec) (h : v.from_location = v.to_location) :
    launch (some v) locs
      = { reply := LaunchReply.ack false sameLocationMessage
          spawned := [] } := by
  simp [launch, h]

/-- Witness for C5: a concrete launch with both location ids equal to 1
returns the failure acknowledgement and spawns nothing. -/
theorem C5_same_location_launch_rejected_witness :
    launch (some ⟨1, 1, "false", "false"⟩) []
      = { reply := LaunchReply.ack false sameLocationMessage
          spawned := [] } :=
  C5_same_location_launch_rejected ⟨1, 1, "false", "false"⟩ [] rfl

/-- C6: a request whose selection resolves to the empty component list
ends with status `done` and a transferred count of 0, never `failed`. -/
theorem C6_empty_resolution_is_done (im il : Bool) :
    (transfer_components (Except.ok []) im il).finalStatus = JobStatus.done
    ∧ (transfer_components (Except.ok []) im il).transferredCount = 0
    ∧ (transfer_components (Except.ok []) im il).finalStatus
        ≠ JobStatus.failed := by
  exact ⟨rfl, rfl, fun h => JobStatus.noConfusion h⟩

/-- C7: when every resolved component is already in the target, each
copy attempt's already-present error is absorbed, every component is
attempted, zero byte copies are performed, and the run ends `done`; a
second run of the identical request — the same pure engine application —
therefore also ends `done` with zero byte copies. -/
theorem C7_idempotent_when_all_in_target (outs : List CopyOutcome)
    (im il : Bool) (hall : ∀ o ∈ outs, o = CopyOutcome.alreadyInTarget) :
    (transfer_components (Except.ok outs) im il).finalStatus
        = JobStatus.done
    ∧ (transfer_components (Except.ok outs) im il).byteCopies = 0
    ∧ (transfer_components (Except.ok outs) im il).attempts = outs.length
    ∧ (∀ o ∈ outs, handle_add_component im il o = StepResult.absorbed)
    ∧ (transfer_components (Except.ok outs) im il).finalStatus
        = JobStatus.done
    ∧ (transfer_components (Except.ok outs) im il).byteCopies = 0 := by
  have habs : ∀ o ∈ outs,
      handle_add_component im il o = StepResult.absorbed := by
    intro o ho
    rw [hall o ho]
    rfl
  have hrun := runBatch_all_absorbed im il outs.length outs 1 habs
  have hstatus :
      (transfer_components (Except.ok outs) im il).finalStatus
        = JobStatus.done := by
    simp only [transfer_components]
    rw [hrun.1]
    rfl
  have hbytes :
      (transfer_components (Except.ok outs) im il).byteCopies = 0 := by
    simp only [transfer_components]
    rw [hrun.1]
    exact hrun.2.1
  have hatt :
      (transfer_components (Except.ok outs) im il).attempts
        = outs.length := by
    simp only [transfer_components]
    rw [hrun.1]
    exact hrun.2.2
  exact ⟨hstatus, hbytes, hatt, habs, hstatus, hbytes⟩

/-- Witness for C7: a two-component batch already present in the target
ends `done` with zero byte copies. -/
theorem C7_idempotent_when_all_in_target_witness :
    (transfer_components
        (Except.ok [CopyOutcome.alreadyInTarget, CopyOutcome.alreadyInTarget])
        false false).finalStatus = JobStatus.done
    ∧ (transfer_components
        (Except.ok [CopyOutcome.alreadyInTarget, CopyOutcome.alreadyInTarget])
        false false).byteCopies = 0 :=
  ⟨(C7_idempotent_when_all_in_target
      [CopyOutcome.alreadyInTarget, CopyOutcome.alreadyInTarget] false false
      (by decide)).1,
    (C7_idempotent_when_all_in_target
      [CopyOutcome.alreadyInTarget, CopyOutcome.alreadyInTarget] false false
      (by decide)).2.1⟩

/-- C8: the resolver's result is the union of the four per-entity-type
bucket queries (project, hierarchical context, version, component),
each constrained to components with a presence record in the source
location, with set semantics — the returned collection has no duplicate
components by identity. -/
theorem C8_resolver_partitions_and_unions (catalog : List CatComponent)
    (entities : List SelectionItem) (locId : Nat) :
    get_components_in_location catalog entities locId
      = locQuery catalog
          (matchesProject (entityGroup entities "Project")) locId
        ∪ locQuery catalog
          (matchesTypedContext (entityGroup entities "TypedContext")) locId
        ∪ locQuery catalog
          (matchesVersion (entityGroup entities "assetversion")) locId
        ∪ locQuery catalog
          (matchesComponent (entityGroup entities "Component")) locId
    ∧ (get_components_in_location catalog entities locId).toList.Nodup := by
  refine ⟨?_, Finset.nodup_toList _⟩
  by_cases h1 : entityGroup entities "Project" = [] <;>
  by_cases h2 : entityGroup entities "TypedContext" = [] <;>
  by_cases h3 : entityGroup entities "assetversion" = [] <;>
  by_cases h4 : entityGroup entities "Component" = [] <;>
  simp [get_components_in_location, h1, h2, h3, h4,
    locQuery_project_nil, locQuery_context_nil, locQuery_version_nil,
    locQuery_component_nil]

/-- C9: the interface handler returns a form exactly when at least two
eligible locations exist (configured accessor, name outside the
excluded built-in set, sorted by priority); the first eligible location
is pre-selected as the `From location` default and the second as the
`To location` default, and with fewer than two eligible locations the
handler fails with an out-of-range index error instead of returning a
form. -/
theorem C9_interface_needs_two_eligible_locations
    (locs : List LocationRec) :
    (interface false locs = InterfaceOutcome.indexError
      ↔ (eligibleLocations locs).length < 2)
    ∧ (∀ l0 l1 rest, eligibleLocations locs = l0 :: l1 :: rest →
        interface false locs = InterfaceOutcome.form
          { fromDefault := l0.id
            toDefault := l1.id
            optionIds := (eligibleLocations locs).map (fun l => l.id)
            ignoreMissingDefault := "false"
            ignoreErrorsDefault := "false" })
    ∧ (eligibleLocations locs).length
        = ((locs.filter (fun l => l.hasAccessor)).filter
            (fun l => !(excluded_locations.contains l.name))).length := by
  refine ⟨?_, ?_, ?_⟩
  · rcases helig : eligibleLocations locs with _ | ⟨a, _ | ⟨b, rest⟩⟩ <;>
    simp [interface, helig]
  · intro l0 l1 rest he
    simp [interface, he]
  · simp only [eligibleLocations]
    exact (((List.perm_insertionSort
      (fun a b => a.priority ≤ b.priority)
      (locs.filter (fun l => l.hasAccessor))).filter _)).length_eq

/-- Witness for C9: on a concrete catalog with two eligible locations
the handler returns the form with the first location pre-selected as
source default and the second as target default. -/
theorem C9_interface_needs_two_eligible_locations_witness :
    interface false demoLocations
      = InterfaceOutcome.form ⟨1, 2, [1, 2], "false", "false"⟩ :=
  (C9_interface_needs_two_eligible_locations demoLocations).2.1
    { id := 1, name := "studio.a", label := "Studio A",
      priority := 0, hasAccessor := true }
    { id := 2, name := "studio.b", label := "Studio B",
      priority := 1, hasAccessor := true }
    [] (by decide)

/-- C10: both configure-location handlers proceed to register locations
exactly when the event's source hostname is absent/empty or equal,
lowercased, to the current machine's hostname (when the hostnames
differ they return without touching any location), and the patched
publish stamps the lowered current hostname onto the source of every
configure-location event. -/
theorem C10_hostname_filter (currentHostname : String)
    (sourceHostname : Option String) (e : PublishedEvent) :
    (configure_locations currentHostname sourceHostname = true
      ↔ (eventHostnameLower sourceHostname = ""
          ∨ eventHostnameLower sourceHostname = currentHostname.toLower))
    ∧ (configure_s3_location currentHostname sourceHostname = true
      ↔ (eventHostnameLower sourceHostname = ""
          ∨ eventHostnameLower sourceHostname = currentHostname.toLower))
    ∧ publish_with_hostname currentHostname e
        = (if e.topic == configureLocationTopic
            then { e with sourceHostname := some currentHostname.toLower }
            else e) := by
  refine ⟨?_, ?_, rfl⟩ <;>
  · by_cases h1 : eventHostnameLower sourceHostname = "" <;>
    by_cases h2 : eventHostnameLower sourceHostname
        = currentHostname.toLower <;>
    simp [configure_locations, configure_s3_location, h1, h2]

end MultiSiteLocation
